import Mathlib

/-!
Verification of the TF-IDF keyword-extraction pipeline (`main.py`).

The program segments a document into articles on the start marker
`УДК \d\d\d.`, truncates each article at the first occurrence of the end
marker `СПИСОК ЛИТЕРАТУРЫ`, filters tokens down to purely alphabetic
(Latin or Cyrillic `а`-`я`/`А`-`Я`) or hyphen words, computes per-article
TF-IDF scores over lemma lists, sorts each article's scores descending
with a stable sort, and formats the top `limit` entries per article.

The embedding below models strings as Lean `String`/`List Char`, Python
floats as `ℚ`, Python `Counter` insertion order as first-occurrence
deduplication, Python dicts as association lists in insertion order, and
fallible Python code (exceptions such as `TypeError` from `reduce` over an
empty iterable, `KeyError`, `ZeroDivisionError`) as `Option`.
-/

namespace TextKeyword

/-! ## Article segmenter (`split_text_into_articles`) -/

/-- Prepend a character to the first segment of a non-empty segment list
(the list is created with one empty segment when empty). -/
def consCar (c : Char) : List (List Char) → List (List Char)
  | [] => [[c]]
  | s :: ss => (c :: s) :: ss

/-- Model of `re.split(r'УДК \d\d\d\.', text)`: scan left to right; at each
position, if the eight-character start-marker pattern (`УДК `, three digits,
`.`) matches, end the current segment and continue after the match,
otherwise move one character forward. -/
def splitOnStart : List Char → List (List Char)
  | [] => [[]]
  | 'У' :: 'Д' :: 'К' :: ' ' :: d1 :: d2 :: d3 :: '.' :: rest =>
      if d1.isDigit && d2.isDigit && d3.isDigit then
        [] :: splitOnStart rest
      else
        consCar 'У' (splitOnStart ('Д' :: 'К' :: ' ' :: d1 :: d2 :: d3 :: '.' :: rest))
  | c :: rest => consCar c (splitOnStart rest)

/-- Number of non-overlapping matches of the start-marker pattern, scanned
left to right exactly as `splitOnStart` scans. -/
def countStartMatches : List Char → Nat
  | [] => 0
  | 'У' :: 'Д' :: 'К' :: ' ' :: d1 :: d2 :: d3 :: '.' :: rest =>
      if d1.isDigit && d2.isDigit && d3.isDigit then
        countStartMatches rest + 1
      else
        countStartMatches ('Д' :: 'К' :: ' ' :: d1 :: d2 :: d3 :: '.' :: rest)
  | _ :: rest => countStartMatches rest

/-- The end-marker pattern of `re.split(r'СПИСОК ЛИТЕРАТУРЫ', article)`. -/
def endMarker : List Char := "СПИСОК ЛИТЕРАТУРЫ".data

/-- Model of `re.split(r'СПИСОК ЛИТЕРАТУРЫ', article)[0]`: the text before
the first occurrence of the end marker, or the whole text if absent. -/
def takeBeforeMarker : List Char → List Char
  | [] => []
  | c :: rest =>
    if List.isPrefixOf endMarker (c :: rest) then []
    else c :: takeBeforeMarker rest

/-- `split_text_into_articles` from `main.py`: split on the start marker,
drop the first segment (`splitted_text[1:]`), truncate each remaining
segment at the end marker. -/
def split_text_into_articles (text : String) : List String :=
  ((splitOnStart text.data).tail).map (fun cs => String.mk (takeBeforeMarker cs))

/-! ## Alphabetic filter (`remove_non_alphabetical_words`) -/

/-- Membership in the regex character class `[a-zA-Zа-яА-Я-]` of
`remove_non_alphabetical_words`. -/
def isAlphaHyphen (c : Char) : Bool :=
  (decide ('a' ≤ c) && decide (c ≤ 'z')) ||
  (decide ('A' ≤ c) && decide (c ≤ 'Z')) ||
  (decide ('а' ≤ c) && decide (c ≤ 'я')) ||
  (decide ('А' ≤ c) && decide (c ≤ 'Я')) ||
  (c == '-')

/-- The keep condition of `remove_non_alphabetical_words`:
`re.search(r'[a-zA-Zа-яА-Я-]', word) and not re.search(r'[^a-zA-Zа-яА-Я-]', word)`,
that is, some character is in the class and no character is outside it. -/
def keepWord (w : String) : Bool :=
  (w.data.any fun c => isAlphaHyphen c) && (w.data.all fun c => isAlphaHyphen c)

/-- `remove_non_alphabetical_words` from `main.py`. -/
def remove_non_alphabetical_words (words : List String) : List String :=
  words.filter keepWord

/-! ## TF-IDF engine (`count_number_of_articles_with_all_words`,
`calculate_tf_idf`, `sort_tf_idfs`) -/

/-- Keys of Python `Counter(l)` in insertion order: the distinct elements
of `l`, each at its first occurrence. -/
def firstDedup : List String → List String
  | [] => []
  | w :: rest => w :: (firstDedup rest).filter (fun v => decide (v ≠ w))

/-- The inner loop of `count_number_of_articles_with_all_words` for one
word: the number of articles containing the word, accumulated one article
at a time. -/
def countArticlesWith (w : String) (articles : List (List String)) : Nat :=
  articles.foldl (fun acc a => if w ∈ a then acc + 1 else acc) 0

/-- The dictionary built by `count_number_of_articles_with_all_words` for a
non-empty article list: one entry per distinct word of the concatenation
(in first-occurrence order), provided at least one article contains it
(otherwise the Python loop never inserts the key). -/
def dfTable (articles : List (List String)) : List (String × Nat) :=
  (firstDedup articles.flatten).filterMap (fun w =>
    if countArticlesWith w articles = 0 then none
    else some (w, countArticlesWith w articles))

/-- `count_number_of_articles_with_all_words` from `main.py`.
`reduce(lambda x, y: x + y, articles)` raises `TypeError` on an empty
article list (no initial value), modelled as `none`; otherwise it is the
concatenation of all articles. -/
def count_number_of_articles_with_all_words (articles : List (List String)) :
    Option (List (String × Nat)) :=
  match articles with
  | [] => none
  | _ :: _ => some (dfTable articles)

/-- Evaluate a list of fallible computations left to right, stopping at the
first failure, as a Python loop over fallible statements does. -/
def optionMap {α β : Type} (f : α → Option β) : List α → Option (List β)
  | [] => some []
  | x :: xs =>
    match f x with
    | none => none
    | some y =>
      match optionMap f xs with
      | none => none
      | some ys => some (y :: ys)

/-- The loop body of `calculate_tf_idf` for one word of an article:
`tf = word_frequency[word] / number_of_words`,
`idf = number_of_articles / number_of_articles_with_word[word]`,
entry `word: tf * idf`. A missing key (`KeyError`) or a zero divisor
(`ZeroDivisionError`) is an error. -/
def scoreWord (numArticles : Nat) (df : List (String × Nat)) (article : List String)
    (w : String) : Option (String × ℚ) :=
  match List.lookup w df with
  | none => none
  | some k =>
    if article.length = 0 then none
    else if k = 0 then none
    else some (w, ((article.count w : ℚ) / (article.length : ℚ)) *
      ((numArticles : ℚ) / (k : ℚ)))

/-- The per-article dictionary `article_tf_idfs` of `calculate_tf_idf`:
one entry per distinct word of the article in first-occurrence order
(iteration over `Counter(article)`). -/
def articleTfIdf (numArticles : Nat) (df : List (String × Nat))
    (article : List String) : Option (List (String × ℚ)) :=
  optionMap (scoreWord numArticles df article) (firstDedup article)

/-- Stable insertion into a descending-sorted list: the new entry goes
before the first entry whose score is not larger, so among equal scores an
earlier-inserted entry stays first. -/
def insertDesc (p : String × ℚ) : List (String × ℚ) → List (String × ℚ)
  | [] => [p]
  | q :: rest => if q.2 ≤ p.2 then p :: q :: rest else q :: insertDesc p rest

/-- Model of Python `sorted(article.items(), key=lambda x: -x[1])`: a
stable sort by score descending (Python's sort is stable, and the key is
the negated score alone). -/
def sortArticle : List (String × ℚ) → List (String × ℚ)
  | [] => []
  | p :: rest => insertDesc p (sortArticle rest)

/-- `sort_tf_idfs` from `main.py`: sort each article's dictionary by score
descending. -/
def sort_tf_idfs (tf_idfs : List (List (String × ℚ))) : List (List (String × ℚ)) :=
  tf_idfs.map sortArticle

/-- `calculate_tf_idf` from `main.py`: build the document-frequency table,
score every article, sort the results. -/
def calculate_tf_idf (lemmatized_articles : List (List String)) :
    Option (List (List (String × ℚ))) :=
  match count_number_of_articles_with_all_words lemmatized_articles with
  | none => none
  | some df =>
    match optionMap (articleTfIdf lemmatized_articles.length df) lemmatized_articles with
    | none => none
    | some tf_idfs => some (sort_tf_idfs tf_idfs)

/-! ## Formatting (`format_tf_idf`) -/

/-- Round to the nearest integer, ties to even, as Python `round` does. -/
def roundHalfEven (q : ℚ) : ℤ :=
  if q - (⌊q⌋ : ℚ) < 1 / 2 then ⌊q⌋
  else if (1 : ℚ) / 2 < q - (⌊q⌋ : ℚ) then ⌊q⌋ + 1
  else if ⌊q⌋ % 2 = 0 then ⌊q⌋ else ⌊q⌋ + 1

/-- Strip trailing `'0'` characters. -/
def stripZeros (s : String) : String :=
  String.mk ((s.data.reverse.dropWhile (fun c => c == '0')).reverse)

/-- Pad a digit string to five characters with leading zeros. -/
def padFrac (s : String) : String :=
  String.mk (List.replicate (5 - s.length) '0') ++ s

/-- Decimal rendering of `round(x, 5)` as Python's float formatting prints
it: round to five decimal places (ties to even), print integer part, a
point, and the fractional digits with trailing zeros removed, keeping at
least one digit. -/
def ratToDec5 (q : ℚ) : String :=
  let n := roundHalfEven (q * 100000)
  let sign := if n < 0 then "-" else ""
  let m := n.natAbs
  let fracDigits := stripZeros (padFrac (toString (m % 100000)))
  sign ++ toString (m / 100000) ++ "." ++
    (if fracDigits = "" then "0" else fracDigits)

/-- One output line `f'{word}: {round(tf_idf, 5)}\n'` of `format_tf_idf`. -/
def termLine (p : String × ℚ) : String :=
  p.1 ++ ": " ++ ratToDec5 p.2 ++ "\n"

/-- The block `format_tf_idf` emits for one article: the header
`f'\nArticle {index + 1}\n'` followed by the first
`len(terms) if len(terms) < limit else limit` entries, one line each. -/
def format_article (index : Nat) (terms : List (String × ℚ)) (limit : Nat) : String :=
  "\nArticle " ++ toString (index + 1) ++ "\n" ++
    String.join ((terms.take (if terms.length < limit then terms.length else limit)).map
      termLine)

/-- `format_tf_idf` from `main.py`: concatenate the blocks of all articles,
`enumerate` supplying the zero-based index. -/
def format_tf_idf (tf_idfs : List (List (String × ℚ))) (limit : Nat) : String :=
  String.join ((tf_idfs.enum).map (fun p => format_article p.1 p.2 limit))

/-! ## Segmenter lemmas -/

lemma consCar_ne_nil (c : Char) (l : List (List Char)) : consCar c l ≠ [] := by
  cases l <;> simp [consCar]

lemma consCar_length (c : Char) (l : List (List Char)) (h : l ≠ []) :
    (consCar c l).length = l.length := by
  cases l with
  | nil => exact absurd rfl h
  | cons s ss => rfl

lemma splitOnStart_length (cs : List Char) :
    (splitOnStart cs).length = countStartMatches cs + 1 := by
  induction cs using splitOnStart.induct with
  | case1 => rfl
  | case2 d1 d2 d3 rest h ih =>
    simp only [splitOnStart, countStartMatches, h, if_true, List.length_cons]
    omega
  | case3 d1 d2 d3 rest h ih =>
    rw [splitOnStart.eq_2, countStartMatches.eq_2, if_neg h, if_neg h]
    have hne : splitOnStart ('Д' :: 'К' :: ' ' :: d1 :: d2 :: d3 :: '.' :: rest) ≠ [] := by
      intro hnil
      rw [hnil] at ih
      simp at ih
    rw [consCar_length _ _ hne, ih]
  | case4 c rest h ih =>
    rw [splitOnStart.eq_3 c rest h, countStartMatches.eq_3 c rest h]
    have hne : splitOnStart rest ≠ [] := by
      intro hnil
      rw [hnil] at ih
      simp at ih
    rw [consCar_length _ _ hne, ih]

/-! ## Engine lemmas -/

lemma mem_firstDedup (w : String) (l : List String) : w ∈ firstDedup l ↔ w ∈ l := by
  induction l with
  | nil => simp [firstDedup]
  | cons x xs ih =>
    simp only [firstDedup, List.mem_cons, List.mem_filter, decide_eq_true_eq, ih]
    by_cases h : w = x <;> simp [h]

lemma nodup_firstDedup (l : List String) : (firstDedup l).Nodup := by
  induction l with
  | nil => simp [firstDedup]
  | cons x xs ih =>
    refine List.Nodup.cons ?_ (ih.filter _)
    intro hx
    exact (by simpa using (List.mem_filter.1 hx).2 : x ≠ x) rfl

lemma countArticlesWith_eq_length_filter (w : String) (articles : List (List String)) :
    countArticlesWith w articles = (articles.filter (fun a => decide (w ∈ a))).length := by
  have key : ∀ (l : List (List String)) (n : Nat),
      l.foldl (fun acc a => if w ∈ a then acc + 1 else acc) n =
        n + (l.filter (fun a => decide (w ∈ a))).length := by
    intro l
    induction l with
    | nil => simp
    | cons a rest ih =>
      intro n
      by_cases h : w ∈ a
      · simp [h, ih]
        omega
      · simp [h, ih]
  simpa [countArticlesWith] using key articles 0

lemma countArticlesWith_pos (w : String) (articles : List (List String))
    (a : List String) (ha : a ∈ articles) (hw : w ∈ a) :
    1 ≤ countArticlesWith w articles := by
  rw [countArticlesWith_eq_length_filter]
  have hmem : a ∈ articles.filter (fun x => decide (w ∈ x)) :=
    List.mem_filter.2 ⟨ha, by simpa using hw⟩
  have := List.length_pos.2 (List.ne_nil_of_mem hmem)
  omega

lemma lookup_dfTable_aux (articles : List (List String)) (w : String)
    (keys : List String) (hw : w ∈ keys) (hk : countArticlesWith w articles ≠ 0) :
    List.lookup w (keys.filterMap (fun v =>
        if countArticlesWith v articles = 0 then none
        else some (v, countArticlesWith v articles))) =
      some (countArticlesWith w articles) := by
  induction keys with
  | nil => cases hw
  | cons k rest ih =>
    by_cases hwk : w = k
    · subst hwk
      simp [List.filterMap_cons, hk, List.lookup]
    · have hw' : w ∈ rest := by
        rcases List.mem_cons.1 hw with h | h
        · exact absurd h hwk
        · exact h
      have hbeq : (w == k) = false := beq_false_of_ne hwk
      by_cases hk0 : countArticlesWith k articles = 0 <;>
        simp [List.filterMap_cons, hk0, List.lookup, hbeq, ih hw']

lemma lookup_dfTable (articles : List (List String)) (w : String)
    (hw : w ∈ articles.flatten) :
    List.lookup w (dfTable articles) = some (countArticlesWith w articles) := by
  have hk : countArticlesWith w articles ≠ 0 := by
    rcases List.mem_flatten.1 hw with ⟨a, ha, hwa⟩
    have := countArticlesWith_pos w articles a ha hwa
    omega
  exact lookup_dfTable_aux articles w _ ((mem_firstDedup _ _).2 hw) hk

lemma count_number_eq_some (articles : List (List String)) (h : articles ≠ []) :
    count_number_of_articles_with_all_words articles = some (dfTable articles) := by
  cases articles with
  | nil => exact absurd rfl h
  | cons a rest => rfl

lemma optionMap_eq_some {α β : Type} (f : α → Option β) (g : α → β) (l : List α)
    (h : ∀ x ∈ l, f x = some (g x)) : optionMap f l = some (l.map g) := by
  induction l with
  | nil => rfl
  | cons x xs ih =>
    have hx := h x (List.mem_cons_self x xs)
    have hxs := ih (fun y hy => h y (List.mem_cons_of_mem x hy))
    simp [optionMap, hx, hxs]

/-- The score `calculate_tf_idf` computes for one word of one article. -/
def tfIdfValue (articles : List (List String)) (a : List String) (w : String) : ℚ :=
  ((a.count w : ℚ) / (a.length : ℚ)) *
    ((articles.length : ℚ) / ((countArticlesWith w articles : ℚ)))

/-- The dictionary `calculate_tf_idf` builds for one article, before
sorting: one entry per distinct word, in first-occurrence order. -/
def articleMapping (articles : List (List String)) (a : List String) :
    List (String × ℚ) :=
  (firstDedup a).map (fun w => (w, tfIdfValue articles a w))

lemma scoreWord_eq_some (articles : List (List String)) (a : List String)
    (ha : a ∈ articles) (w : String) (hw : w ∈ a) :
    scoreWord articles.length (dfTable articles) a w =
      some (w, tfIdfValue articles a w) := by
  have hwf : w ∈ articles.flatten := List.mem_flatten.2 ⟨a, ha, hw⟩
  have hlen : a.length ≠ 0 := by
    cases a with
    | nil => cases hw
    | cons x xs => simp
  have hk : countArticlesWith w articles ≠ 0 := by
    have := countArticlesWith_pos w articles a ha hw
    omega
  simp [scoreWord, lookup_dfTable articles w hwf, hlen, hk, tfIdfValue]

lemma articleTfIdf_eq_some (articles : List (List String)) (a : List String)
    (ha : a ∈ articles) :
    articleTfIdf articles.length (dfTable articles) a =
      some (articleMapping articles a) := by
  unfold articleTfIdf articleMapping
  exact optionMap_eq_some _ _ _
    (fun w hwd => scoreWord_eq_some articles a ha w ((mem_firstDedup _ _).1 hwd))

lemma calculate_tf_idf_eq (articles : List (List String)) (h : articles ≠ []) :
    calculate_tf_idf articles =
      some (articles.map (fun a => sortArticle (articleMapping articles a))) := by
  simp only [calculate_tf_idf, count_number_eq_some articles h,
    optionMap_eq_some (articleTfIdf articles.length (dfTable articles))
      (fun a => articleMapping articles a) articles
      (fun a ha => articleTfIdf_eq_some articles a ha)]
  simp [sort_tf_idfs, List.map_map, Function.comp]

/-! ## Sorting lemmas -/

lemma insertDesc_perm (p : String × ℚ) (l : List (String × ℚ)) :
    (insertDesc p l).Perm (p :: l) := by
  induction l with
  | nil => simp [insertDesc]
  | cons q rest ih =>
    by_cases h : q.2 ≤ p.2
    · simp [insertDesc, h]
    · rw [insertDesc, if_neg h]
      exact (ih.cons q).trans (List.Perm.swap p q rest)

lemma sortArticle_perm (l : List (String × ℚ)) : (sortArticle l).Perm l := by
  induction l with
  | nil => simp [sortArticle]
  | cons p rest ih => exact (insertDesc_perm p (sortArticle rest)).trans (ih.cons p)

lemma mem_insertDesc (x p : String × ℚ) (l : List (String × ℚ)) :
    x ∈ insertDesc p l ↔ x = p ∨ x ∈ l := by
  rw [(insertDesc_perm p l).mem_iff]
  simp

lemma pairwise_insertDesc (p : String × ℚ) (l : List (String × ℚ))
    (h : l.Pairwise (fun a b => b.2 ≤ a.2)) :
    (insertDesc p l).Pairwise (fun a b => b.2 ≤ a.2) := by
  induction l with
  | nil => simp [insertDesc]
  | cons q rest ih =>
    rcases List.pairwise_cons.1 h with ⟨hq, hrest⟩
    by_cases hle : q.2 ≤ p.2
    · rw [insertDesc, if_pos hle]
      refine List.pairwise_cons.2 ⟨?_, h⟩
      intro x hx
      rcases List.mem_cons.1 hx with rfl | hx
      · exact hle
      · exact le_trans (hq x hx) hle
    · rw [insertDesc, if_neg hle]
      refine List.pairwise_cons.2 ⟨?_, ih hrest⟩
      intro x hx
      rcases (mem_insertDesc x p rest).1 hx with rfl | hx
      · exact le_of_lt (lt_of_not_le hle)
      · exact hq x hx

lemma pairwise_sortArticle (l : List (String × ℚ)) :
    (sortArticle l).Pairwise (fun a b => b.2 ≤ a.2) := by
  induction l with
  | nil => simp [sortArticle]
  | cons p rest ih => exact pairwise_insertDesc p (sortArticle rest) ih

lemma filter_insertDesc (s : ℚ) (p : String × ℚ) (l : List (String × ℚ)) :
    (insertDesc p l).filter (fun e => decide (e.2 = s)) =
      if p.2 = s then p :: l.filter (fun e => decide (e.2 = s))
      else l.filter (fun e => decide (e.2 = s)) := by
  induction l with
  | nil =>
    by_cases hp : p.2 = s <;> simp [insertDesc, List.filter, hp]
  | cons q rest ih =>
    by_cases hle : q.2 ≤ p.2
    · rw [insertDesc, if_pos hle]
      by_cases hp : p.2 = s <;> simp [List.filter_cons, hp]
    · rw [insertDesc, if_neg hle]
      have hlt : p.2 < q.2 := lt_of_not_le hle
      by_cases hp : p.2 = s
      · have hq : ¬ q.2 = s := by
          intro hqs
          rw [hp] at hlt
          rw [hqs] at hlt
          exact lt_irrefl s hlt
        simp [List.filter_cons, hq, ih, hp]
      · by_cases hq : q.2 = s <;> simp [List.filter_cons, hq, ih, hp]

lemma filter_sortArticle (s : ℚ) (l : List (String × ℚ)) :
    (sortArticle l).filter (fun e => decide (e.2 = s)) =
      l.filter (fun e => decide (e.2 = s)) := by
  induction l with
  | nil => rfl
  | cons p rest ih =>
    rw [sortArticle, filter_insertDesc]
    by_cases hp : p.2 = s <;> simp [List.filter_cons, hp, ih]

/-! ## Claim theorems -/

/-- Claim C1, counterexample: for the empty corpus the TF-IDF computation
does not complete — `reduce` over the empty article list raises
`TypeError` — so there is no successful result with an empty report. -/
theorem claim_C1_cex :
    ¬ ∃ res, calculate_tf_idf ([] : List (List String)) = some res ∧
      format_tf_idf res 20 = "" := by
  rintro ⟨res, hres, -⟩
  have hnone : calculate_tf_idf ([] : List (List String)) = none := rfl
  rw [hnone] at hres
  exact Option.noConfusion hres

/-- Claim C1, amended: for the empty corpus `calculate_tf_idf` fails
(`reduce` of an empty iterable has no initial value), so no report is
emitted; the formatter itself, applied to an empty list, would return the
empty string. -/
theorem claim_C1 :
    calculate_tf_idf ([] : List (List String)) = none ∧
      format_tf_idf [] 20 = "" :=
  ⟨rfl, rfl⟩

/-- Claim C4, counterexample: on the spec's example text the second
article is `"baz"`, not `" baz"` — the start marker `УДК 005.` consumes
the preceding space into the previous segment, so the claimed output list
is wrong. -/
theorem claim_C4_cex :
    split_text_into_articles "noise УДК 004.foo СПИСОК ЛИТЕРАТУРЫ bar УДК 005.baz" ≠
      ["foo ", " baz"] := by
  decide

/-- Claim C4, amended: the segmenter returns one article per start-marker
occurrence (a text with `k` matches yields exactly `k` articles, the
segment before the first marker being discarded), truncating each article
at the first end-marker occurrence and keeping it whole otherwise; the
example text yields exactly the two articles `"foo "` and `"baz"` in that
order. -/
theorem claim_C4 :
    (∀ text : String,
        (split_text_into_articles text).length = countStartMatches text.data) ∧
    split_text_into_articles "noise УДК 004.foo СПИСОК ЛИТЕРАТУРЫ bar УДК 005.baz" =
      ["foo ", "baz"] := by
  constructor
  · intro text
    have h := splitOnStart_length text.data
    simp only [split_text_into_articles, List.length_map, List.length_tail]
    omega
  · decide

/-- Claim C4 witness: on a concrete text with one start-marker match, the
segmenter returns exactly one article. -/
theorem claim_C4_witness :
    (split_text_into_articles "abc УДК 123.x").length =
      countStartMatches ("abc УДК 123.x" : String).data :=
  claim_C4.1 "abc УДК 123.x"

/-- Claim C5: the per-article ranking is a permutation of the score
mapping, sorted by score in non-increasing order, and entries with equal
scores keep their relative input order (the order in which the lemmas were
first encountered during counting), so the ranking is deterministic. -/
theorem claim_C5 (l : List (String × ℚ)) :
    (sortArticle l).Perm l ∧
    (sortArticle l).Pairwise (fun a b => b.2 ≤ a.2) ∧
    ∀ s : ℚ, (sortArticle l).filter (fun e => decide (e.2 = s)) =
      l.filter (fun e => decide (e.2 = s)) :=
  ⟨sortArticle_perm l, pairwise_sortArticle l, fun s => filter_sortArticle s l⟩

/-- Claim C5 witness: sorting a concrete two-entry mapping yields a
permutation, descending scores, and unchanged order among entries scoring
`1/2`. -/
theorem claim_C5_witness :
    (sortArticle [("a", (1 : ℚ)), ("b", mkRat 1 2)]).Perm
        [("a", (1 : ℚ)), ("b", mkRat 1 2)] ∧
    (sortArticle [("a", (1 : ℚ)), ("b", mkRat 1 2)]).Pairwise
        (fun a b => b.2 ≤ a.2) ∧
    (sortArticle [("a", (1 : ℚ)), ("b", mkRat 1 2)]).filter
        (fun e => decide (e.2 = mkRat 1 2)) =
      [("a", (1 : ℚ)), ("b", mkRat 1 2)].filter (fun e => decide (e.2 = mkRat 1 2)) :=
  ⟨(claim_C5 [("a", (1 : ℚ)), ("b", mkRat 1 2)]).1,
    (claim_C5 [("a", (1 : ℚ)), ("b", mkRat 1 2)]).2.1,
    (claim_C5 [("a", (1 : ℚ)), ("b", mkRat 1 2)]).2.2 (mkRat 1 2)⟩

/-- Claim C8: the alphabetic filter keeps a token iff it has at least one
character of the class `[a-zA-Zа-яА-Я-]` and no character outside it; the
class is exactly the four letter ranges plus hyphen; surviving tokens form
a sublist (source order kept) with unchanged multiplicity, and the spec's
six example tokens behave as stated. -/
theorem claim_C8 :
    (∀ (words : List String) (w : String),
        w ∈ remove_non_alphabetical_words words ↔
          w ∈ words ∧ (∃ c ∈ w.data, isAlphaHyphen c = true) ∧
            ∀ c ∈ w.data, isAlphaHyphen c = true) ∧
    (∀ c : Char, isAlphaHyphen c = true ↔
        (('a' ≤ c ∧ c ≤ 'z') ∨ ('A' ≤ c ∧ c ≤ 'Z') ∨ ('а' ≤ c ∧ c ≤ 'я') ∨
          ('А' ≤ c ∧ c ≤ 'Я') ∨ c = '-')) ∧
    (∀ words : List String, (remove_non_alphabetical_words words).Sublist words) ∧
    (∀ (words : List String) (w : String), keepWord w = true →
        (remove_non_alphabetical_words words).count w = words.count w) ∧
    remove_non_alphabetical_words ["abc123", "123", "!!", "co-op", "слово", "word"] =
      ["co-op", "слово", "word"] := by
  refine ⟨?_, ?_, ?_, ?_, by decide⟩
  · intro words w
    simp [remove_non_alphabetical_words, List.mem_filter, keepWord,
      List.any_eq_true, List.all_eq_true, and_assoc]
  · intro c
    simp only [isAlphaHyphen, Bool.or_eq_true, Bool.and_eq_true, decide_eq_true_eq,
      beq_iff_eq]
    tauto
  · intro words
    exact List.filter_sublist words
  · intro words w hw
    induction words with
    | nil => rfl
    | cons x xs ih =>
      by_cases hx : keepWord x = true
      · simp [remove_non_alphabetical_words, List.filter_cons, hx] at ih ⊢
        rw [List.count_cons, List.count_cons, ih]
      · have hxw : ¬ x = w := by
          intro hxw
          rw [hxw] at hx
          exact hx hw
        simp [remove_non_alphabetical_words, List.filter_cons, hx] at ih ⊢
        rw [List.count_cons, ih]
        simp [hxw]

/-- Claim C8 witness: the kept token `word` keeps its multiplicity when
the filter drops `!!` from a concrete token list. -/
theorem claim_C8_witness :
    keepWord "word" = true ∧
      (remove_non_alphabetical_words ["word", "!!", "word"]).count "word" =
        (["word", "!!", "word"] : List String).count "word" :=
  ⟨by decide, claim_C8.2.2.2.1 ["word", "!!", "word"] "word" (by decide)⟩

/-- Claim C10: any token containing `ё` (or uppercase `Ё`) is rejected by
the alphabetic filter, because the accepted character class is exactly
`a`-`z`, `A`-`Z`, `а`-`я`, `А`-`Я` and the hyphen, and both `ё` and `Ё`
fall outside those ranges. -/
theorem claim_C10 (words : List String) (w : String)
    (h : 'ё' ∈ w.data ∨ 'Ё' ∈ w.data) :
    w ∉ remove_non_alphabetical_words words := by
  intro hmem
  have hall : ∀ c ∈ w.data, isAlphaHyphen c = true := by
    have hk := (List.mem_filter.1 hmem).2
    rw [keepWord, Bool.and_eq_true] at hk
    exact List.all_eq_true.1 hk.2
  rcases h with h | h
  · have := hall 'ё' h
    exact absurd this (by decide)
  · have := hall 'Ё' h
    exact absurd this (by decide)

/-- Claim C10 witness: the purely alphabetic Russian word `ещё` contains
`ё` and is rejected by the filter. -/
theorem claim_C10_witness :
    ('ё' ∈ ("ещё" : String).data ∨ 'Ё' ∈ ("ещё" : String).data) ∧
      "ещё" ∉ remove_non_alphabetical_words ["ещё"] :=
  ⟨by decide, claim_C10 ["ещё"] "ещё" (by decide)⟩

/-- Claim C2: for every corpus and every word of one of its articles, the
score `calculate_tf_idf` assigns to that word in that article's mapping is
`(count of the word in the article / article length) *
(number of articles / number of articles containing the word)`; in
particular, for a one-article corpus with pairwise-distinct lemmas every
lemma's score is `1 / number_of_words`. -/
theorem claim_C2 :
    (∀ (articles : List (List String)) (i : Nat) (hi : i < articles.length)
        (w : String), w ∈ articles[i] →
      ∃ res, calculate_tf_idf articles = some res ∧
        ∃ m, res[i]? = some m ∧
          ((w, ((articles[i].count w : ℚ) / (articles[i].length : ℚ)) *
              ((articles.length : ℚ) /
                (((articles.filter (fun x => decide (w ∈ x))).length : ℚ)))) ∈ m ∧
          ∀ s : ℚ, (w, s) ∈ m →
            s = ((articles[i].count w : ℚ) / (articles[i].length : ℚ)) *
              ((articles.length : ℚ) /
                (((articles.filter (fun x => decide (w ∈ x))).length : ℚ))))) ∧
    (∀ a : List String, a.Nodup → ∀ w ∈ a,
      ∃ res, calculate_tf_idf [a] = some res ∧
        ∃ m, res[0]? = some m ∧ (w, (1 : ℚ) / (a.length : ℚ)) ∈ m) := by
  have part1 : ∀ (articles : List (List String)) (i : Nat) (hi : i < articles.length)
      (w : String), w ∈ articles[i] →
      ∃ res, calculate_tf_idf articles = some res ∧
        ∃ m, res[i]? = some m ∧
          ((w, ((articles[i].count w : ℚ) / (articles[i].length : ℚ)) *
              ((articles.length : ℚ) /
                (((articles.filter (fun x => decide (w ∈ x))).length : ℚ)))) ∈ m ∧
          ∀ s : ℚ, (w, s) ∈ m →
            s = ((articles[i].count w : ℚ) / (articles[i].length : ℚ)) *
              ((articles.length : ℚ) /
                (((articles.filter (fun x => decide (w ∈ x))).length : ℚ)))) := by
    intro articles i hi w hw
    have hne : articles ≠ [] := by
      intro h
      rw [h] at hi
      simp at hi
    refine ⟨_, calculate_tf_idf_eq articles hne,
      sortArticle (articleMapping articles articles[i]), ?_, ?_, ?_⟩
    · rw [List.getElem?_map, List.getElem?_eq_getElem hi]
      rfl
    · rw [(sortArticle_perm _).mem_iff]
      refine List.mem_map.2 ⟨w, (mem_firstDedup w _).2 hw, ?_⟩
      simp [tfIdfValue, countArticlesWith_eq_length_filter]
    · intro s hs
      rw [(sortArticle_perm _).mem_iff] at hs
      rcases List.mem_map.1 hs with ⟨w', hw', heq⟩
      rcases Prod.mk.injEq _ _ _ _ ▸ heq with ⟨rfl, hval⟩
      rw [← hval, tfIdfValue, countArticlesWith_eq_length_filter]
  refine ⟨part1, ?_⟩
  intro a hnodup w hw
  have h0 : 0 < ([a] : List (List String)).length := by simp
  obtain ⟨res, hres, m, hm, hmem, -⟩ := part1 [a] 0 h0 w (by simpa)
  refine ⟨res, hres, m, hm, ?_⟩
  have hcount : a.count w = 1 := by
    have h1 := List.nodup_iff_count_le_one.1 hnodup w
    have h2 : 0 < a.count w := List.count_pos_iff.2 hw
    omega
  have hfilt : (([a] : List (List String)).filter (fun x => decide (w ∈ x))).length = 1 := by
    simp [hw]
  have hval : ((([a] : List (List String))[0].count w : ℚ) /
        (([a] : List (List String))[0].length : ℚ)) *
      ((([a] : List (List String)).length : ℚ) /
        (((([a] : List (List String)).filter (fun x => decide (w ∈ x))).length : ℚ))) =
      (1 : ℚ) / (a.length : ℚ) := by
    simp only [List.getElem_cons_zero, List.length_singleton]
    rw [hcount, hfilt]
    norm_num
  rw [hval] at hmem
  exact hmem

/-- Claim C2 witness: for the one-article corpus `[["x", "y"]]` with all
lemmas distinct, the lemma `x` is scored `1 / 2`. -/
theorem claim_C2_witness :
    (["x", "y"] : List String).Nodup ∧ "x" ∈ (["x", "y"] : List String) ∧
    ∃ res, calculate_tf_idf [["x", "y"]] = some res ∧
      ∃ m, res[0]? = some m ∧
        ((("x" : String), (1 : ℚ) / (((["x", "y"] : List String).length : ℚ))) ∈ m) :=
  ⟨by decide, by decide, claim_C2.2 ["x", "y"] (by decide) "x" (by decide)⟩

/-- Claim C3: the document-frequency table maps every word occurring in
some article of the corpus to the number of articles containing it at
least once (presence, not occurrence count). -/
theorem claim_C3 (articles : List (List String)) (w : String) (a : List String)
    (ha : a ∈ articles) (hw : w ∈ a) :
    ∃ df, count_number_of_articles_with_all_words articles = some df ∧
      List.lookup w df =
        some ((articles.filter (fun x => decide (w ∈ x))).length) := by
  have hne : articles ≠ [] := List.ne_nil_of_mem ha
  refine ⟨dfTable articles, count_number_eq_some articles hne, ?_⟩
  rw [lookup_dfTable articles w (List.mem_flatten.2 ⟨a, ha, hw⟩),
    countArticlesWith_eq_length_filter]

/-- Claim C3 witness: in a ten-article corpus where `b` occurs in exactly
three articles (with repeats inside them), its document frequency is 3. -/
theorem claim_C3_witness :
    (["b", "b", "b"] ∈ ([["b", "b", "b"], ["c"], ["b"], ["d"], ["e"], ["b", "b"],
        ["f"], ["g"], ["h"], ["i"]] : List (List String))) ∧
    ("b" ∈ (["b", "b", "b"] : List String)) ∧
    (([["b", "b", "b"], ["c"], ["b"], ["d"], ["e"], ["b", "b"],
        ["f"], ["g"], ["h"], ["i"]] : List (List String)).filter
      (fun x => decide ("b" ∈ x))).length = 3 ∧
    ∃ df, count_number_of_articles_with_all_words
        [["b", "b", "b"], ["c"], ["b"], ["d"], ["e"], ["b", "b"],
          ["f"], ["g"], ["h"], ["i"]] = some df ∧
      List.lookup "b" df =
        some ((([["b", "b", "b"], ["c"], ["b"], ["d"], ["e"], ["b", "b"],
          ["f"], ["g"], ["h"], ["i"]] : List (List String)).filter
            (fun x => decide ("b" ∈ x))).length) :=
  ⟨by decide, by decide, by decide,
    claim_C3 _ "b" ["b", "b", "b"] (by decide) (by decide)⟩

/-- Claim C9: for every word of every article of a corpus, the
document-frequency table has an entry for the word, its value is at least
1, and the article's scoring succeeds — no missing key and no division by
zero. -/
theorem claim_C9 (articles : List (List String)) (a : List String)
    (ha : a ∈ articles) (w : String) (hw : w ∈ a) :
    ∃ df, count_number_of_articles_with_all_words articles = some df ∧
      (∃ k, List.lookup w df = some k ∧ 1 ≤ k) ∧
      ∃ m, articleTfIdf articles.length df a = some m := by
  have hne : articles ≠ [] := List.ne_nil_of_mem ha
  exact ⟨dfTable articles, count_number_eq_some articles hne,
    ⟨countArticlesWith w articles,
      lookup_dfTable articles w (List.mem_flatten.2 ⟨a, ha, hw⟩),
      countArticlesWith_pos w articles a ha hw⟩,
    articleMapping articles a, articleTfIdf_eq_some articles a ha⟩

/-- Claim C9 witness: in the corpus `[["x", "y"], ["y"]]`, the word `y` of
the first article has a table entry of value at least 1 and the article's
scoring succeeds. -/
theorem claim_C9_witness :
    (["x", "y"] ∈ ([["x", "y"], ["y"]] : List (List String))) ∧
    ("y" ∈ (["x", "y"] : List String)) ∧
    ∃ df, count_number_of_articles_with_all_words [["x", "y"], ["y"]] = some df ∧
      (∃ k, List.lookup "y" df = some k ∧ 1 ≤ k) ∧
      ∃ m, articleTfIdf ([["x", "y"], ["y"]] : List (List String)).length df
        ["x", "y"] = some m :=
  ⟨by decide, by decide,
    claim_C9 [["x", "y"], ["y"]] ["x", "y"] (by decide) "y" (by decide)⟩

/-- Claim C6: a corpus article whose lemma list is empty does not make the
scoring fail — the per-word loop never runs, so no division is evaluated —
its mapping is empty, and its block in the report is the header alone,
with zero term lines. -/
theorem claim_C6 (articles : List (List String)) (i : Nat)
    (hi : i < articles.length) (he : articles[i] = []) :
    ∃ res, calculate_tf_idf articles = some res ∧ res[i]? = some [] ∧
      ((res.enum.map (fun p => format_article p.1 p.2 20))[i]? =
        some ("\nArticle " ++ toString (i + 1) ++ "\n")) ∧
      format_tf_idf res 20 =
        String.join (res.enum.map (fun p => format_article p.1 p.2 20)) := by
  have hne : articles ≠ [] := by
    intro h
    rw [h] at hi
    simp at hi
  have hri : (articles.map (fun a => sortArticle (articleMapping articles a)))[i]? =
      some [] := by
    rw [List.getElem?_map, List.getElem?_eq_getElem hi, he]
    rfl
  have hfa : format_article i [] 20 = "\nArticle " ++ toString (i + 1) ++ "\n" := by
    show "\nArticle " ++ toString (i + 1) ++ "\n" ++ String.join [] = _
    rw [show String.join [] = "" from rfl, String.append_empty]
  refine ⟨articles.map (fun a => sortArticle (articleMapping articles a)),
    calculate_tf_idf_eq articles hne, hri, ?_, rfl⟩
  rw [List.getElem?_map, List.getElem?_enum, hri]
  simp [hfa]

/-- Claim C6 witness: in the corpus `[["a"], []]`, the empty second
article is scored successfully with an empty mapping and its report block
is the bare header `Article 2`. -/
theorem claim_C6_witness :
    (1 < ([["a"], []] : List (List String)).length) ∧
    (([["a"], []] : List (List String))[1] = []) ∧
    ∃ res, calculate_tf_idf [["a"], []] = some res ∧ res[1]? = some [] ∧
      ((res.enum.map (fun p => format_article p.1 p.2 20))[1]? =
        some ("\nArticle " ++ toString (1 + 1) ++ "\n")) ∧
      format_tf_idf res 20 =
        String.join (res.enum.map (fun p => format_article p.1 p.2 20)) :=
  ⟨by decide, by decide, claim_C6 [["a"], []] 1 (by decide) (by decide)⟩

/-- Claim C7: for every list of score mappings and every limit, the
formatter's block for article `i` is its 1-based header followed by
exactly `min limit n` term lines (`n` the number of distinct lemmas), each
line a lemma and its score rounded to five decimal digits; the blocks
concatenate to the report; and when the mapping is sorted descending (as
the pipeline's ranking step guarantees) the emitted entries all score at
least as high as every omitted entry. -/
theorem claim_C7 (tf_idfs : List (List (String × ℚ))) (limit i : Nat)
    (terms : List (String × ℚ)) (hi : tf_idfs[i]? = some terms)
    (hsorted : terms.Pairwise (fun a b => b.2 ≤ a.2)) :
    ((tf_idfs.enum.map (fun p => format_article p.1 p.2 limit))[i]? =
      some ("\nArticle " ++ toString (i + 1) ++ "\n" ++
        String.join ((terms.take (min limit terms.length)).map termLine))) ∧
    format_tf_idf tf_idfs limit =
      String.join (tf_idfs.enum.map (fun p => format_article p.1 p.2 limit)) ∧
    (terms.take (min limit terms.length)).length = min limit terms.length ∧
    ∀ p ∈ terms.take (min limit terms.length),
      ∀ q ∈ terms.drop (min limit terms.length), q.2 ≤ p.2 := by
  have hmin : (if terms.length < limit then terms.length else limit) =
      min limit terms.length := by
    rcases Nat.lt_or_ge terms.length limit with h | h
    · rw [if_pos h]
      omega
    · rw [if_neg (Nat.not_lt.2 h)]
      omega
  refine ⟨?_, rfl, ?_, ?_⟩
  · rw [List.getElem?_map, List.getElem?_enum, hi]
    simp [format_article, hmin]
  · rw [List.length_take]
    omega
  · intro p hp q hq
    have hpw : (terms.take (min limit terms.length) ++
        terms.drop (min limit terms.length)).Pairwise (fun a b => b.2 ≤ a.2) := by
      rw [List.take_append_drop]
      exact hsorted
    exact (List.pairwise_append.1 hpw).2.2 p hp q hq

/-- Claim C7 witness: an article with three distinct lemmas and limit 2
emits its header and exactly the two highest-scored lines. -/
theorem claim_C7_witness :
    (([[("a", (1 : ℚ)), ("b", mkRat 1 2), ("c", (0 : ℚ))]] :
        List (List (String × ℚ)))[0]? =
      some [("a", (1 : ℚ)), ("b", mkRat 1 2), ("c", (0 : ℚ))]) ∧
    ([("a", (1 : ℚ)), ("b", mkRat 1 2), ("c", (0 : ℚ))].Pairwise
      (fun a b => b.2 ≤ a.2)) ∧
    ((([[("a", (1 : ℚ)), ("b", mkRat 1 2), ("c", (0 : ℚ))]] :
        List (List (String × ℚ))).enum.map
          (fun p => format_article p.1 p.2 2))[0]? =
      some ("\nArticle " ++ toString (0 + 1) ++ "\n" ++
        String.join (([("a", (1 : ℚ)), ("b", mkRat 1 2), ("c", (0 : ℚ))].take
          (min 2 [("a", (1 : ℚ)), ("b", mkRat 1 2), ("c", (0 : ℚ))].length)).map
            termLine))) ∧
    ([("a", (1 : ℚ)), ("b", mkRat 1 2), ("c", (0 : ℚ))].take
        (min 2 [("a", (1 : ℚ)), ("b", mkRat 1 2), ("c", (0 : ℚ))].length)).length =
      min 2 [("a", (1 : ℚ)), ("b", mkRat 1 2), ("c", (0 : ℚ))].length :=
  ⟨rfl, by decide,
    (claim_C7 [[("a", (1 : ℚ)), ("b", mkRat 1 2), ("c", (0 : ℚ))]] 2 0
      [("a", (1 : ℚ)), ("b", mkRat 1 2), ("c", (0 : ℚ))] rfl (by decide)).1,
    (claim_C7 [[("a", (1 : ℚ)), ("b", mkRat 1 2), ("c", (0 : ℚ))]] 2 0
      [("a", (1 : ℚ)), ("b", mkRat 1 2), ("c", (0 : ℚ))] rfl (by decide)).2.2.1⟩

end TextKeyword
